import Mathlib

/-!
Shallow embedding of the `overlay_cv` post-processing stage
(`src/post_processing_stages/overlay_cv_stage.cpp`).

The stage burns text overlays into the luminance plane of a YUV420 frame.
Pure data and control flow of `Read`/`Configure`/`GenerateCache`/`Process`
are translated directly; the external OpenCV rasterization primitives
(`getTextSize`, `putText`, `rectangle`) and the metadata/strftime text
expansion are out of scope per the specification and are modelled as
parameters (`Externals`, `expand`).

Machine integers: `current_time`, `last_update` and `update_interval` are
`uint64_t` in the source; their subtraction is modelled with an explicit
wrap modulo 2^64 (`u64sub`).  The thickness adjustment multiplies an `int`
by the unsigned stream width, so it is modelled modulo 2^32.  Frame and
patch coordinates are `int` in the source and are modelled as `Int`
(stream dimensions are far below 2^31, so the `static_cast<int>` of
`info_.width - text_size.width` computes the exact integer difference).
-/

namespace OverlayCV

/-- A frame's luminance plane: value at (row, col).  The source addresses it
as a `cv::Mat` view over the buffer; the stride-based addressing is abstracted
into a total function on coordinates. -/
abbrev Frame := Int → Int → Nat

/-- The cached rasterized patch: `cached_x`, `cached_y`, `cached_width`,
`cached_height` and the pixel contents of `cached_roi`. -/
@[ext] structure Patch where
  x : Int
  y : Int
  w : Nat
  h : Nat
  pix : Int → Int → Nat

/-- One entry of `overlays_`: the fields of `struct OverlayConfig` that are
live after `Read`/`Configure` (the raw `x_str`/`y_str` strings are consumed
by `ParsePosition` during `Configure` and `x`, `y` hold the result). -/
structure OverlayConfig where
  text : String
  fg : Nat
  bg : Nat
  has_bg : Bool
  scale : ℚ
  thickness : Int
  alpha : ℚ
  x : Int
  y : Int
  update_interval : Nat
  is_dynamic : Bool
  border_width : Int
  border_color : Nat
  has_border : Bool
  cached : Option Patch
  last_update : Nat

/-- External rasterization primitives (out of scope per the spec):
`measure` is `cv::getTextSize` (text, scale, thickness ↦ (width, height,
baseline)); `strokeMask` is the coverage of `cv::rectangle` stroked with the
given thickness on a w × h patch; `glyphMask` is the coverage of
`cv::putText` for the text drawn at the given origin point. -/
structure Externals where
  measure : String → ℚ → Int → Nat × Nat × Nat
  strokeMask : Nat → Nat → Int → Int → Int → Bool
  glyphMask : String → ℚ → Int → Int × Int → Int → Int → Bool

/-- Wrap-around subtraction of two `uint64_t` values (`a`, `b` < 2^64). -/
def u64sub (a b : Nat) : Nat := (a + 2 ^ 64 - b) % 2 ^ 64

/-- `cv::Mat::empty()` on the cache: the initial `cv::Mat()` is empty, and a
constructed mat is empty iff one of its dimensions is zero. -/
def cacheEmpty : Option Patch → Bool
  | none => true
  | some p => p.w == 0 || p.h == 0

/-- Pixel contents of the patch built by `GenerateCache`: `setTo` background
fill, then the optional `rectangle` border stroke, then `putText` of the text
at patch-local baseline point `(0, text_height)` with color `fg` (drawing
order of lines 149-161 of the source). -/
def patchPix (E : Externals) (cfg : OverlayConfig) (text : String)
    (tw th bl : Nat) : Int → Int → Nat :=
  fun r c =>
    if E.glyphMask text cfg.scale cfg.thickness (0, (th : Int)) r c then cfg.fg
    else if cfg.has_border && E.strokeMask tw (th + bl) cfg.border_width r c then
      cfg.border_color
    else if cfg.has_bg then cfg.bg else 0

/-- `OverlayCVStage::GenerateCache`: measure the text, clamp the anchor,
rasterize background/border/text into a fresh patch and store it together
with its frame-space rectangle. -/
def generateCache (E : Externals) (W H : Nat) (cfg : OverlayConfig)
    (text : String) : OverlayConfig :=
  if text = "" then { cfg with cached := none }
  else
    let m := E.measure text cfg.scale cfg.thickness
    let tw := m.1
    let th := m.2.1
    let bl := m.2.2
    let x_pos : Int := max 0 (min cfg.x ((W : Int) - (tw : Int)))
    let y_pos : Int := max ((th : Int) + (bl : Int)) (min cfg.y ((H : Int) - (bl : Int)))
    { cfg with cached := some { x := x_pos, y := y_pos - (th : Int),
                                w := tw, h := th + bl,
                                pix := patchPix E cfg text tw th bl } }

/-- The cache-freshness policy of `Process` (lines 191-200): dynamic
overlays re-render when `current_time - last_update >= update_interval`
(uint64 arithmetic) and then set `last_update`; static overlays render only
when the cache is empty.  Returns the new state and whether `GenerateCache`
was invoked. -/
def updateCache (E : Externals) (W H : Nat) (now : Nat) (cfg : OverlayConfig)
    (text : String) : OverlayConfig × Bool :=
  if cfg.is_dynamic then
    if cfg.update_interval ≤ u64sub now cfg.last_update then
      ({ generateCache E W H cfg text with last_update := now }, true)
    else (cfg, false)
  else
    if cacheEmpty cfg.cached then (generateCache E W H cfg text, true)
    else (cfg, false)

/-- Membership of a frame coordinate in the rectangle of a patch. -/
def inRect (p : Patch) (r c : Int) : Prop :=
  p.y ≤ r ∧ r < p.y + (p.h : Int) ∧ p.x ≤ c ∧ c < p.x + (p.w : Int)

instance (p : Patch) (r c : Int) : Decidable (inRect p r c) := by
  unfold inRect; exact inferInstance

/-- `cached_roi.copyTo(dst_roi)`: overwrite the patch rectangle of the frame
with the patch contents. -/
def composite (frame : Frame) (p : Patch) : Frame :=
  fun r c => if inRect p r c then p.pix (r - p.y) (c - p.x) else frame r c

/-- The compositing step of `Process` (lines 202-210): if the cache is
non-empty and its rectangle lies inside the frame, stamp it; otherwise leave
the frame alone.  Returns the frame and the patch actually drawn, if any. -/
def compositeCache (W H : Nat) (frame : Frame) (cfg : OverlayConfig) :
    Frame × Option Patch :=
  match cfg.cached with
  | none => (frame, none)
  | some p =>
    if 0 < p.w ∧ 0 < p.h ∧ 0 ≤ p.x ∧ 0 ≤ p.y ∧
       p.x + (p.w : Int) ≤ (W : Int) ∧ p.y + (p.h : Int) ≤ (H : Int) then
      (composite frame p, some p)
    else (frame, none)

/-- Per-frame text expansion: dynamic overlays run the template through the
external metadata formatter and strftime (`FormatText`, abstracted as
`ex`); static overlays use the literal text. -/
def expandText (ex : String → String) (cfg : OverlayConfig) : String :=
  if cfg.is_dynamic then ex cfg.text else cfg.text

/-- Result of `Process` on one overlay: the mutated frame, the overlay's new
state, whether `GenerateCache` ran, and the patch composited (if any). -/
structure StepOut where
  frame : Frame
  cfg : OverlayConfig
  rendered : Bool
  drawn : Option Patch

/-- One iteration of the overlay loop in `OverlayCVStage::Process`
(lines 186-211): expand the text, skip the overlay entirely when the
expansion is empty, otherwise refresh the cache per policy and composite. -/
def processOverlay (E : Externals) (W H : Nat) (now : Nat)
    (ex : String → String) (frame : Frame) (cfg : OverlayConfig) : StepOut :=
  if expandText ex cfg = "" then ⟨frame, cfg, false, none⟩
  else
    ⟨(compositeCache W H frame (updateCache E W H now cfg (expandText ex cfg)).1).1,
     (updateCache E W H now cfg (expandText ex cfg)).1,
     (updateCache E W H now cfg (expandText ex cfg)).2,
     (compositeCache W H frame (updateCache E W H now cfg (expandText ex cfg)).1).2⟩

/-- Result of a full `Process` call: the mutated frame, the updated overlay
vector, and (as an observation) the list of patches composited, in order. -/
structure RunOut where
  frame : Frame
  cfgs : List OverlayConfig
  drawn : List Patch

/-- `OverlayCVStage::Process`: fold `processOverlay` over `overlays_` in
input order against a single timestamp taken at entry. -/
def processAll (E : Externals) (W H : Nat) (now : Nat)
    (ex : String → String) : Frame → List OverlayConfig → RunOut
  | frame, [] => ⟨frame, [], []⟩
  | frame, cfg :: rest =>
    let s := processOverlay E W H now ex frame cfg
    let r := processAll E W H now ex s.frame rest
    ⟨r.frame, s.cfg :: r.cfgs,
     match s.drawn with
     | some p => p :: r.drawn
     | none => r.drawn⟩

/-- State evolution of a single overlay under `Process`, frame contents
ignored (the overlay's cache policy does not read the frame). -/
def stepCfg (E : Externals) (W H : Nat) (now : Nat) (ex : String → String)
    (cfg : OverlayConfig) : OverlayConfig × Bool :=
  if expandText ex cfg = "" then (cfg, false)
  else updateCache E W H now cfg (expandText ex cfg)

/-- A run of the stage observed at one overlay: fold `stepCfg` over a trace
of `Process` invocations (timestamp and per-frame text expansion each), and
count how many times `GenerateCache` was invoked for this overlay. -/
def runCfg (E : Externals) (W H : Nat) :
    OverlayConfig → List (Nat × (String → String)) → OverlayConfig × Nat
  | cfg, [] => (cfg, 0)
  | cfg, (now, ex) :: rest =>
    let s := stepCfg E W H now ex cfg
    let r := runCfg E W H s.1 rest
    (r.1, (if s.2 then 1 else 0) + r.2)

/-- The thickness adjustment of `Configure`
(`std::max<int>(c.thickness * info_.width / 700, 1)`): the `int` thickness
is converted to unsigned for the multiplication by the unsigned width, the
product wraps modulo 2^32, the division is unsigned, and the quotient
(< 2^32 / 700, hence exactly representable as `int`) is clamped to 1. -/
def adjustedThickness (t : Int) (W : Nat) : Int :=
  max (((t % (2 ^ 32 : Int)).toNat * W % 2 ^ 32 / 700 : Nat) : Int) 1

/-- The per-overlay body of `OverlayCVStage::Configure` (lines 122-124):
rescale the font scale against a 1200 px reference and adjust the stroke
thickness against a 700 px reference.  (`ParsePosition`, whose definition is
not part of the analysed translation unit, writes `x` and `y`; they are
modelled as already holding the parsed pixel values.) -/
def configureOverlay (W : Nat) (cfg : OverlayConfig) : OverlayConfig :=
  { cfg with scale := cfg.scale * (W : ℚ) / 1200,
             thickness := adjustedThickness cfg.thickness W }

/-! Concrete fixtures, used to evaluate the development on explicit inputs:
a simple instantiation of the external primitives (glyph coverage is the
single pixel at the baseline origin, a border stroke covers the top row),
a constant test frame, and a handful of overlay states. -/

/-- Concrete external primitives: a text of length n measures n × 1 with
baseline 1, glyphs cover exactly the baseline origin pixel, a border stroke
covers the top row of the patch. -/
def extA : Externals :=
  { measure := fun t _ _ => (t.length, 1, 1),
    strokeMask := fun _ _ _ r _ => r == 0,
    glyphMask := fun _ _ _ o r c => r == o.2 && c == o.1 }

/-- Identity per-frame text expansion. -/
def idExpand : String → String := fun s => s

/-- A constant test frame of luminance 100. -/
def frame100 : Frame := fun _ _ => 100

/-- A static overlay with an explicit background (`bg = 7`, `alpha = 0`). -/
def cfgA : OverlayConfig :=
  { text := "A", fg := 9, bg := 7, has_bg := true, scale := 1, thickness := 1,
    alpha := 0, x := 0, y := 2, update_interval := 1000, is_dynamic := false,
    border_width := 0, border_color := 0, has_border := false,
    cached := none, last_update := 0 }

/-- A dynamic overlay that has never rendered (`last_update = 0`). -/
def cfgDyn : OverlayConfig :=
  { text := "%H", fg := 9, bg := 0, has_bg := false, scale := 1, thickness := 1,
    alpha := 0, x := 0, y := 2, update_interval := 1000, is_dynamic := true,
    border_width := 0, border_color := 0, has_border := false,
    cached := none, last_update := 0 }

/-- A dynamic overlay whose previous render stamped `last_update = 2000`. -/
def cfgDyn2000 : OverlayConfig :=
  { cfgDyn with last_update := 2000,
                cached := some { x := 0, y := 1, w := 2, h := 2,
                                 pix := fun _ _ => 7 } }

/-- A static overlay whose text measures wider than a 4 × 4 frame. -/
def cfgBig : OverlayConfig :=
  { cfgA with text := "AAAAAAAAAA" }

/-- A static overlay whose template expands to the empty string. -/
def cfgEmpty : OverlayConfig :=
  { cfgA with text := "" }

/-! Helper lemmas shared by the claim theorems. -/

/-- Explicit form of the cache produced by `GenerateCache` on non-empty text. -/
theorem generateCache_eq (E : Externals) (W H : Nat) (cfg : OverlayConfig)
    (text : String) (tw th bl : Nat)
    (hm : E.measure text cfg.scale cfg.thickness = (tw, th, bl))
    (htext : text ≠ "") :
    (generateCache E W H cfg text).cached = some
      { x := max 0 (min cfg.x ((W : Int) - (tw : Int))),
        y := max ((th : Int) + (bl : Int)) (min cfg.y ((H : Int) - (bl : Int))) - (th : Int),
        w := tw, h := th + bl,
        pix := patchPix E cfg text tw th bl } := by
  unfold generateCache
  rw [if_neg htext, hm]

/-- `GenerateCache` only writes the cache field. -/
theorem generateCache_preserves (E : Externals) (W H : Nat)
    (cfg : OverlayConfig) (text : String) :
    (generateCache E W H cfg text).text = cfg.text ∧
    (generateCache E W H cfg text).is_dynamic = cfg.is_dynamic ∧
    (generateCache E W H cfg text).scale = cfg.scale ∧
    (generateCache E W H cfg text).thickness = cfg.thickness := by
  unfold generateCache
  split <;> exact ⟨rfl, rfl, rfl, rfl⟩

/-- The cache produced for a text with positive measured dimensions is
non-empty in the `cv::Mat::empty()` sense. -/
theorem cacheEmpty_generateCache (E : Externals) (W H : Nat)
    (cfg : OverlayConfig) (text : String) (htext : text ≠ "")
    (hw : 0 < (E.measure text cfg.scale cfg.thickness).1)
    (hh : 0 < (E.measure text cfg.scale cfg.thickness).2.1 +
          (E.measure text cfg.scale cfg.thickness).2.2) :
    cacheEmpty (generateCache E W H cfg text).cached = false := by
  rw [generateCache_eq E W H cfg text
        (E.measure text cfg.scale cfg.thickness).1
        (E.measure text cfg.scale cfg.thickness).2.1
        (E.measure text cfg.scale cfg.thickness).2.2 rfl htext]
  simp [cacheEmpty]
  omega

/-- A pixel outside the patch drawn by the compositing step is unchanged. -/
theorem compositeCache_unchanged (W H : Nat) (frame : Frame)
    (cfg : OverlayConfig) (r c : Int)
    (h : ∀ p, (compositeCache W H frame cfg).2 = some p → ¬ inRect p r c) :
    (compositeCache W H frame cfg).1 r c = frame r c := by
  cases hcc : cfg.cached with
  | none => simp [compositeCache, hcc]
  | some p =>
    simp only [compositeCache, hcc] at h ⊢
    by_cases hg : 0 < p.w ∧ 0 < p.h ∧ 0 ≤ p.x ∧ 0 ≤ p.y ∧
        p.x + (p.w : Int) ≤ (W : Int) ∧ p.y + (p.h : Int) ≤ (H : Int)
    · rw [if_pos hg] at h ⊢
      have hp := h p rfl
      show composite frame p r c = frame r c
      unfold composite
      rw [if_neg hp]
    · rw [if_neg hg]

/-- A pixel outside the patch drawn for one overlay is unchanged by that
overlay's `Process` iteration. -/
theorem processOverlay_unchanged (E : Externals) (W H now : Nat)
    (ex : String → String) (frame : Frame) (cfg : OverlayConfig) (r c : Int)
    (h : ∀ p, (processOverlay E W H now ex frame cfg).drawn = some p →
         ¬ inRect p r c) :
    (processOverlay E W H now ex frame cfg).frame r c = frame r c := by
  by_cases ht : expandText ex cfg = ""
  · simp [processOverlay, ht]
  · simp only [processOverlay, if_neg ht] at h ⊢
    exact compositeCache_unchanged W H frame _ r c h

/-! Claim theorems. -/

/-- C9: at `Configure` time the adjusted thickness equals
`max(1, floor(thickness × W / 700))` (within `int`/`unsigned` range, i.e.
when `thickness × W` does not wrap modulo 2^32), and for every thickness and
width the adjusted thickness is at least 1. -/
theorem c9_adjusted_thickness (W : Nat) (cfg : OverlayConfig)
    (h1 : 1 ≤ cfg.thickness) (h2 : 1 ≤ W)
    (h3 : cfg.thickness.toNat * W < 2 ^ 32) :
    (configureOverlay W cfg).thickness = max 1 (cfg.thickness * (W : Int) / 700) ∧
    ∀ (W' : Nat) (cfg' : OverlayConfig), 1 ≤ (configureOverlay W' cfg').thickness := by
  constructor
  · show adjustedThickness cfg.thickness W = _
    have h0 : (0 : Int) ≤ cfg.thickness := by omega
    have htn : ((cfg.thickness.toNat : Int)) = cfg.thickness := Int.toNat_of_nonneg h0
    have hle : cfg.thickness.toNat ≤ cfg.thickness.toNat * W := by
      calc cfg.thickness.toNat = cfg.thickness.toNat * 1 := (Nat.mul_one _).symm
        _ ≤ cfg.thickness.toNat * W := Nat.mul_le_mul_left _ h2
    have hltI : cfg.thickness < (2 ^ 32 : Int) := by omega
    unfold adjustedThickness
    rw [Int.emod_eq_of_lt h0 hltI, Nat.mod_eq_of_lt h3, max_comm]
    congr 1
    push_cast [htn]
    rfl
  · intro W' cfg'
    exact le_max_right _ 1

/-- C9 witness: thickness 1 at stream width 1400 adjusts to
`max(1, 1400/700) = 2`. -/
theorem c9_witness :
    ((1 : Int) ≤ cfgA.thickness ∧ 1 ≤ 1400 ∧ cfgA.thickness.toNat * 1400 < 2 ^ 32) ∧
    (configureOverlay 1400 cfgA).thickness = max 1 (cfgA.thickness * (1400 : Int) / 700) :=
  ⟨⟨by decide, by decide, by decide⟩,
   (c9_adjusted_thickness 1400 cfgA (by decide) (by decide) (by decide)).1⟩

/-- C1: for every `Process` invocation and overlay configuration, a frame
pixel outside the union of the composited patch rectangles keeps the value
it had before `Process`; only pixels inside some composited patch rectangle
may change. -/
theorem c1_outside_union_unchanged (E : Externals) (W H now : Nat)
    (ex : String → String) :
    ∀ (cfgs : List OverlayConfig) (frame : Frame) (r c : Int),
    (∀ p ∈ (processAll E W H now ex frame cfgs).drawn, ¬ inRect p r c) →
    (processAll E W H now ex frame cfgs).frame r c = frame r c := by
  intro cfgs
  induction cfgs with
  | nil => intro frame r c _; rfl
  | cons cfg rest ih =>
    intro frame r c h
    simp only [processAll] at h ⊢
    cases hd : (processOverlay E W H now ex frame cfg).drawn with
    | none =>
      rw [hd] at h
      dsimp only at h
      have h1 : (processOverlay E W H now ex frame cfg).frame r c = frame r c := by
        apply processOverlay_unchanged
        intro p hp
        rw [hd] at hp
        exact absurd hp (by simp)
      rw [ih _ r c h, h1]
    | some p =>
      rw [hd] at h
      dsimp only at h
      have hp : ¬ inRect p r c := h p (List.mem_cons_self _ _)
      have hrest : ∀ q ∈ (processAll E W H now ex
          (processOverlay E W H now ex frame cfg).frame rest).drawn,
          ¬ inRect q r c :=
        fun q hq => h q (List.mem_cons_of_mem _ hq)
      have h1 : (processOverlay E W H now ex frame cfg).frame r c = frame r c := by
        apply processOverlay_unchanged
        intro q hq
        rw [hd] at hq
        injection hq with hq
        exact hq ▸ hp
      rw [ih _ r c hrest, h1]

/-- C1 witness: with one concrete overlay composited at rectangle
rows 1-2 × column 0, pixel (0, 0) lies outside every drawn patch and keeps
its input value. -/
theorem c1_witness :
    (∀ p ∈ (processAll extA 4 4 0 idExpand frame100 [cfgA]).drawn,
      ¬ inRect p 0 0) ∧
    (processAll extA 4 4 0 idExpand frame100 [cfgA]).frame 0 0 = frame100 0 0 :=
  ⟨by decide,
   c1_outside_union_unchanged extA 4 4 0 idExpand [cfgA] frame100 0 0 (by decide)⟩

/-- C6: an overlay whose text expands to the empty string is skipped
entirely for that frame — frame, overlay state, render flag and drawn patch
are all unchanged — and when every overlay expands empty, `Process` is the
identity on the frame and on the overlay states. -/
theorem c6_empty_expansion_identity (E : Externals) (W H now : Nat)
    (ex : String → String) :
    (∀ (frame : Frame) (cfg : OverlayConfig), expandText ex cfg = "" →
      processOverlay E W H now ex frame cfg = ⟨frame, cfg, false, none⟩) ∧
    (∀ (frame : Frame) (cfgs : List OverlayConfig),
      (∀ cfg ∈ cfgs, expandText ex cfg = "") →
      (processAll E W H now ex frame cfgs).frame = frame ∧
      (processAll E W H now ex frame cfgs).cfgs = cfgs ∧
      (processAll E W H now ex frame cfgs).drawn = []) := by
  have hskip : ∀ (frame : Frame) (cfg : OverlayConfig), expandText ex cfg = "" →
      processOverlay E W H now ex frame cfg = ⟨frame, cfg, false, none⟩ := by
    intro frame cfg ht
    simp [processOverlay, ht]
  refine ⟨hskip, ?_⟩
  intro frame cfgs
  induction cfgs generalizing frame with
  | nil => intro _; exact ⟨rfl, rfl, rfl⟩
  | cons cfg rest ih =>
    intro h
    have h1 := hskip frame cfg (h cfg (List.mem_cons_self _ _))
    obtain ⟨e1, e2, e3⟩ := ih frame (fun c hc => h c (List.mem_cons_of_mem _ hc))
    simp only [processAll, h1]
    exact ⟨e1, by rw [e2], by simpa using e3⟩

/-- C6 witness: one overlay with literally empty text leaves the frame, the
state vector and the drawn list untouched. -/
theorem c6_witness :
    (∀ cfg ∈ [cfgEmpty], expandText idExpand cfg = "") ∧
    ((processAll extA 4 4 0 idExpand frame100 [cfgEmpty]).frame = frame100 ∧
     (processAll extA 4 4 0 idExpand frame100 [cfgEmpty]).cfgs = [cfgEmpty] ∧
     (processAll extA 4 4 0 idExpand frame100 [cfgEmpty]).drawn = []) :=
  ⟨by decide,
   (c6_empty_expansion_identity extA 4 4 0 idExpand).2 frame100 [cfgEmpty] (by decide)⟩

/-- C4 counterexample: a dynamic overlay on its first `Process` invocation
(cache empty, `last_update` never set, expanded text non-empty) is NOT
rendered when the current timestamp (0, i.e. the epoch) is below
`update_interval = 1000`: the guard is `now - 0 ≥ interval`, so the render
does depend on the current time. -/
theorem c4_counterexample :
    cfgDyn.is_dynamic = true ∧ cacheEmpty cfgDyn.cached = true ∧
    cfgDyn.last_update = 0 ∧ expandText idExpand cfgDyn ≠ "" ∧
    (stepCfg extA 4 4 0 idExpand cfgDyn).2 = false ∧
    cacheEmpty (stepCfg extA 4 4 0 idExpand cfgDyn).1.cached = true := by
  decide

/-- C4 (amended): a dynamic overlay with non-empty expanded text is
rendered exactly when `(now − last_update) mod 2^64 ≥ update_interval`; on
the first invocation (`last_update = 0`) that is `now ≥ update_interval`,
which holds for any realistic epoch-milliseconds timestamp; after any
render, `last_update` is set to the current timestamp. -/
theorem c4_first_render_iff_interval_elapsed (E : Externals) (W H now : Nat)
    (ex : String → String) (cfg : OverlayConfig)
    (hdyn : cfg.is_dynamic = true) (htext : expandText ex cfg ≠ "") :
    ((stepCfg E W H now ex cfg).2 = true ↔
      cfg.update_interval ≤ u64sub now cfg.last_update) ∧
    ((stepCfg E W H now ex cfg).2 = true →
      (stepCfg E W H now ex cfg).1.last_update = now) ∧
    (cfg.last_update = 0 → now < 2 ^ 64 → cfg.update_interval ≤ now →
      (stepCfg E W H now ex cfg).2 = true) := by
  unfold stepCfg
  rw [if_neg htext]
  unfold updateCache
  rw [hdyn]
  by_cases hg : cfg.update_interval ≤ u64sub now cfg.last_update
  · rw [if_pos rfl, if_pos hg]
    exact ⟨⟨fun _ => hg, fun _ => rfl⟩, fun _ => rfl, fun _ _ _ => rfl⟩
  · rw [if_pos rfl, if_neg hg]
    refine ⟨⟨fun hfalse => absurd hfalse (by simp), fun hguard => absurd hguard hg⟩,
            fun hfalse => absurd hfalse (by simp), ?_⟩
    intro h0 hlt hle
    exfalso
    apply hg
    rw [h0]
    unfold u64sub
    omega

/-- C4 witness: with `last_update = 0`, `update_interval = 1000` and a
realistic timestamp `now = 5000`, the first invocation renders. -/
theorem c4_witness :
    (cfgDyn.is_dynamic = true ∧ expandText idExpand cfgDyn ≠ "") ∧
    (stepCfg extA 4 4 5000 idExpand cfgDyn).2 = true :=
  ⟨⟨rfl, by decide⟩,
   (c4_first_render_iff_interval_elapsed extA 4 4 5000 idExpand cfgDyn rfl
      (by decide)).2.2 rfl (by decide) (by decide)⟩

/-- C3: the rate limiter's timestamp comes from `std::chrono::system_clock`
(wall clock), not a monotonic clock.  When the wall clock is set back
(here from 2000 ms to 500 ms with `update_interval = 1000`), the `uint64_t`
difference wraps to nearly 2^64, the guard passes, and the overlay is
re-rasterized even though far less than `update_interval` of monotonic time
has elapsed. -/
theorem c3_wall_clock_regression_rerenders :
    u64sub 500 2000 = 2 ^ 64 - 1500 ∧
    cfgDyn2000.update_interval ≤ u64sub 500 cfgDyn2000.last_update ∧
    (stepCfg extA 4 4 500 idExpand cfgDyn2000).2 = true := by
  refine ⟨by decide, by decide, ?_⟩
  decide

/-- A static overlay's text expansion ignores the per-frame formatter. -/
theorem expandText_static (ex : String → String) (cfg : OverlayConfig)
    (hs : cfg.is_dynamic = false) : expandText ex cfg = cfg.text := by
  unfold expandText
  rw [hs]
  rfl

/-- A static overlay with a non-empty cache is left untouched by `Process`:
no re-render, no state change. -/
theorem stepCfg_static_stable (E : Externals) (W H now : Nat)
    (ex : String → String) (cfg : OverlayConfig)
    (hs : cfg.is_dynamic = false) (hc : cacheEmpty cfg.cached = false) :
    stepCfg E W H now ex cfg = (cfg, false) := by
  unfold stepCfg
  rw [expandText_static ex cfg hs]
  by_cases ht : cfg.text = ""
  · rw [if_pos ht]
  · rw [if_neg ht]
    unfold updateCache
    rw [hs, hc]
    rfl

/-- A static overlay with a non-empty cache never renders over any trace. -/
theorem runCfg_static_stable (E : Externals) (W H : Nat) (cfg : OverlayConfig)
    (hs : cfg.is_dynamic = false) (hc : cacheEmpty cfg.cached = false) :
    ∀ trace, runCfg E W H cfg trace = (cfg, 0) := by
  intro trace
  induction trace with
  | nil => rfl
  | cons step rest ih =>
    obtain ⟨now, ex⟩ := step
    simp [runCfg, stepCfg_static_stable E W H now ex cfg hs hc, ih]

/-- A static overlay with literally empty text never renders. -/
theorem runCfg_static_empty (E : Externals) (W H : Nat) (cfg : OverlayConfig)
    (hs : cfg.is_dynamic = false) (ht : cfg.text = "") :
    ∀ trace, runCfg E W H cfg trace = (cfg, 0) := by
  intro trace
  induction trace with
  | nil => rfl
  | cons step rest ih =>
    obtain ⟨now, ex⟩ := step
    have hstep : stepCfg E W H now ex cfg = (cfg, false) := by
      unfold stepCfg
      rw [expandText_static ex cfg hs, if_pos ht]
    simp [runCfg, hstep, ih]

/-- C5: a static overlay is rasterized at most once across the stage's
lifetime: over any trace of `Process` invocations, `GenerateCache` runs for
it at most once (under the `getTextSize` contract that a non-empty string
measures to positive dimensions), and the cached patch is reused verbatim
afterwards. -/
theorem c5_static_renders_at_most_once (E : Externals) (W H : Nat)
    (cfg : OverlayConfig) (trace : List (Nat × (String → String)))
    (hs : cfg.is_dynamic = false)
    (hm : cfg.text = "" ∨
      (0 < (E.measure cfg.text cfg.scale cfg.thickness).1 ∧
       0 < (E.measure cfg.text cfg.scale cfg.thickness).2.1 +
           (E.measure cfg.text cfg.scale cfg.thickness).2.2)) :
    (runCfg E W H cfg trace).2 ≤ 1 := by
  rcases hm with ht | ⟨hw, hh⟩
  · rw [runCfg_static_empty E W H cfg hs ht trace]
    exact Nat.zero_le 1
  · by_cases hc : cacheEmpty cfg.cached = true
    · by_cases ht : cfg.text = ""
      · rw [runCfg_static_empty E W H cfg hs ht trace]
        exact Nat.zero_le 1
      · cases trace with
        | nil => exact Nat.zero_le 1
        | cons step rest =>
          obtain ⟨now, ex⟩ := step
          have hstep : stepCfg E W H now ex cfg =
              (generateCache E W H cfg cfg.text, true) := by
            unfold stepCfg
            rw [expandText_static ex cfg hs, if_neg ht]
            unfold updateCache
            rw [hs, hc]
            rfl
          have hcache : cacheEmpty (generateCache E W H cfg cfg.text).cached = false :=
            cacheEmpty_generateCache E W H cfg cfg.text ht hw hh
          have hdyn2 : (generateCache E W H cfg cfg.text).is_dynamic = false := by
            rw [(generateCache_preserves E W H cfg cfg.text).2.1, hs]
          simp [runCfg, hstep, runCfg_static_stable E W H _ hdyn2 hcache rest]
    · have hc' : cacheEmpty cfg.cached = false := by
        simpa using hc
      rw [runCfg_static_stable E W H cfg hs hc' trace]
      exact Nat.zero_le 1

/-- C5 witness: a concrete static overlay over a three-invocation trace
renders exactly on the first invocation, giving a total count of 1. -/
theorem c5_witness :
    (cfgA.is_dynamic = false ∧
      (cfgA.text = "" ∨
        (0 < (extA.measure cfgA.text cfgA.scale cfgA.thickness).1 ∧
         0 < (extA.measure cfgA.text cfgA.scale cfgA.thickness).2.1 +
             (extA.measure cfgA.text cfgA.scale cfgA.thickness).2.2))) ∧
    (runCfg extA 4 4 cfgA [(0, idExpand), (5, idExpand), (10, idExpand)]).2 ≤ 1 :=
  ⟨⟨rfl, Or.inr ⟨by decide, by decide⟩⟩,
   c5_static_renders_at_most_once extA 4 4 cfgA
     [(0, idExpand), (5, idExpand), (10, idExpand)] rfl
     (Or.inr ⟨by decide, by decide⟩)⟩

/-- When the cache policy reports a render, the new cache is exactly what
`GenerateCache` produced. -/
theorem updateCache_rendered_cached (E : Externals) (W H now : Nat)
    (cfg : OverlayConfig) (text : String)
    (h : (updateCache E W H now cfg text).2 = true) :
    (updateCache E W H now cfg text).1.cached =
      (generateCache E W H cfg text).cached := by
  unfold updateCache at h ⊢
  by_cases hd : cfg.is_dynamic = true
  · rw [hd] at h ⊢
    by_cases hg : cfg.update_interval ≤ u64sub now cfg.last_update
    · rw [if_pos rfl, if_pos hg]
    · rw [if_pos rfl, if_neg hg] at h
      exact absurd h (by simp)
  · have hd' : cfg.is_dynamic = false := by
      simpa using hd
    rw [hd'] at h ⊢
    by_cases hc : cacheEmpty cfg.cached = true
    · rw [if_neg (by simp), if_pos hc]
    · rw [if_neg (by simp), if_neg hc] at h
      exact absurd h (by simp)

/-- The compositing step is a no-op when the cached rectangle fails the
bounds check. -/
theorem compositeCache_skip (W H : Nat) (frame : Frame) (cfg : OverlayConfig)
    (p : Patch) (hcc : cfg.cached = some p)
    (hfail : ¬ (0 < p.w ∧ 0 < p.h ∧ 0 ≤ p.x ∧ 0 ≤ p.y ∧
      p.x + (p.w : Int) ≤ (W : Int) ∧ p.y + (p.h : Int) ≤ (H : Int))) :
    compositeCache W H frame cfg = (frame, none) := by
  simp only [compositeCache, hcc]
  rw [if_neg hfail]

/-- C8: when the freshly measured patch is larger than the frame
(`text_width > W` or `text_height + baseline > H`), the overlay is skipped
for that frame: the bounds check fails, nothing is drawn, no frame pixel is
mutated on its account, and the cached state is retained (not invalidated)
so a later frame re-checks the same rectangle. -/
theorem c8_oversized_patch_skipped (E : Externals) (W H now : Nat)
    (ex : String → String) (frame : Frame) (cfg : OverlayConfig)
    (tw th bl : Nat)
    (hm : E.measure (expandText ex cfg) cfg.scale cfg.thickness = (tw, th, bl))
    (htext : expandText ex cfg ≠ "")
    (hrender : (updateCache E W H now cfg (expandText ex cfg)).2 = true)
    (hbig : W < tw ∨ H < th + bl) :
    (processOverlay E W H now ex frame cfg).frame = frame ∧
    (processOverlay E W H now ex frame cfg).drawn = none ∧
    ((processOverlay E W H now ex frame cfg).cfg.cached).isSome = true := by
  have hcc : (updateCache E W H now cfg (expandText ex cfg)).1.cached =
      some { x := max 0 (min cfg.x ((W : Int) - (tw : Int))),
             y := max ((th : Int) + (bl : Int))
                    (min cfg.y ((H : Int) - (bl : Int))) - (th : Int),
             w := tw, h := th + bl,
             pix := patchPix E cfg (expandText ex cfg) tw th bl } :=
    (updateCache_rendered_cached E W H now cfg _ hrender).trans
      (generateCache_eq E W H cfg _ tw th bl hm htext)
  have hskip := compositeCache_skip W H frame _ _ hcc ?hfail
  case hfail =>
    intro hg
    obtain ⟨g1, g2, g3, g4, g5, g6⟩ := hg
    dsimp only at g3 g4 g5 g6
    rcases hbig with hb | hb
    · have hx : (0 : Int) ≤ max 0 (min cfg.x ((W : Int) - (tw : Int))) :=
        le_max_left 0 _
      omega
    · have hy : ((th : Int) + (bl : Int)) ≤
          max ((th : Int) + (bl : Int)) (min cfg.y ((H : Int) - (bl : Int))) :=
        le_max_left _ _
      push_cast at g6
      omega
  refine ⟨?_, ?_, ?_⟩ <;> simp only [processOverlay, if_neg htext]
  · rw [hskip]
  · rw [hskip]
  · rw [hcc]
    rfl

/-- C8 witness: a static overlay whose text measures 10 pixels wide on a
4 × 4 frame renders its cache but is skipped by the compositor, leaving the
frame untouched. -/
theorem c8_witness :
    (extA.measure (expandText idExpand cfgBig) cfgBig.scale cfgBig.thickness =
       (10, 1, 1) ∧
     expandText idExpand cfgBig ≠ "" ∧
     (updateCache extA 4 4 0 cfgBig (expandText idExpand cfgBig)).2 = true ∧
     4 < 10) ∧
    ((processOverlay extA 4 4 0 idExpand frame100 cfgBig).frame = frame100 ∧
     (processOverlay extA 4 4 0 idExpand frame100 cfgBig).drawn = none ∧
     ((processOverlay extA 4 4 0 idExpand frame100 cfgBig).cfg.cached).isSome = true) :=
  ⟨⟨by decide, by decide, by decide, by decide⟩,
   c8_oversized_patch_skipped extA 4 4 0 idExpand frame100 cfgBig 10 1 1
     (by decide) (by decide) (by decide) (Or.inl (by decide))⟩

/-- C7 counterexample: with measured metrics `(tw, th, bl) = (1, 1, 1)` on a
frame of `W = 4`, `H = 2`, the claim's premises hold (`tw ≤ W` and
`th + bl = 2 ≤ H`), and an overlay configured at `x = W`, `y = H` yields a
patch whose top row is 1, not `H − th − bl = 0`, and whose bottom edge is 3,
not `H = 2`: the baseline clamp `y_pos = max(th + bl, min(y, H − bl))`
floors `y_pos` at `th + bl` whenever `H < th + 2·bl`. -/
theorem c7_counterexample :
    (extA.measure "A" cfgA.scale cfgA.thickness = (1, 1, 1) ∧ 1 ≤ 4 ∧ 1 + 1 ≤ 2) ∧
    ((generateCache extA 4 2 { cfgA with x := 4, y := 2 } "A").cached.map
      (fun p => (p.y, p.y + (p.h : Int)))) = some (1, 3) ∧
    ((1 : Int) ≠ 2 - 1 - 1 ∧ (3 : Int) ≠ 2) := by
  decide

/-- C7 (amended): for an overlay configured at `x = W`, `y = H`, if
`text_width ≤ W` and `text_height + 2·baseline ≤ H`, the clamp places the
patch flush with the bottom-right corner: `x_pos = W − text_width`, patch
top `= H − text_height − baseline`, right edge exactly `W` and bottom edge
exactly `H`.  (When `text_height + baseline ≤ H < text_height +
2·baseline` the baseline clamp floors `y_pos` at `text_height + baseline`
and the patch bottom falls below `H`.) -/
theorem c7_bottom_right_clamp (E : Externals) (W H : Nat) (cfg : OverlayConfig)
    (text : String) (tw th bl : Nat)
    (hm : E.measure text cfg.scale cfg.thickness = (tw, th, bl))
    (htext : text ≠ "") (hx : cfg.x = (W : Int)) (hy : cfg.y = (H : Int))
    (hw : tw ≤ W) (hh : th + 2 * bl ≤ H) :
    ∃ p : Patch, (generateCache E W H cfg text).cached = some p ∧
      p.x = (W : Int) - (tw : Int) ∧ p.x + (p.w : Int) = (W : Int) ∧
      p.y = (H : Int) - (th : Int) - (bl : Int) ∧ p.y + (p.h : Int) = (H : Int) := by
  refine ⟨_, generateCache_eq E W H cfg text tw th bl hm htext, ?_, ?_, ?_, ?_⟩ <;>
    dsimp only <;> simp only [hx, hy] <;> omega

/-- C7 witness: metrics `(2, 1, 1)` on a 6 × 6 frame with `x = y = 6` give
`x_pos = 4`, patch top `4 = 6 − 1 − 1`, and edges exactly at 6. -/
theorem c7_witness :
    (extA.measure "AB" cfgA.scale cfgA.thickness = (2, 1, 1) ∧
     ({ cfgA with text := "AB", x := 6, y := 6 } : OverlayConfig).x = (6 : Int) ∧
     ({ cfgA with text := "AB", x := 6, y := 6 } : OverlayConfig).y = (6 : Int) ∧
     2 ≤ 6 ∧ 1 + 2 * 1 ≤ 6) ∧
    (∃ p : Patch,
      (generateCache extA 6 6 { cfgA with text := "AB", x := 6, y := 6 } "AB").cached =
        some p ∧
      p.x = (6 : Int) - (2 : Int) ∧ p.x + (p.w : Int) = (6 : Int) ∧
      p.y = (6 : Int) - (1 : Int) - (1 : Int) ∧ p.y + (p.h : Int) = (6 : Int)) :=
  ⟨⟨by decide, by decide, by decide, by decide, by decide⟩,
   c7_bottom_right_clamp extA 6 6 { cfgA with text := "AB", x := 6, y := 6 }
     "AB" 2 1 1 (by decide) (by decide) (by decide) (by decide) (by decide)
     (by decide)⟩

/-- C10: in every patch render the bounding box is exactly
`text_width × (text_height + baseline)` independent of `border_width`; the
border (when `has_border`) is stroked at the patch perimeter before the
text; the text is drawn at patch-local baseline `(0, text_height)` with no
border inset, so glyph pixels overwrite border pixels where they overlap
(the non-inset variant). -/
theorem c10_patch_render_layout (E : Externals) (W H : Nat)
    (cfg : OverlayConfig) (text : String) (tw th bl : Nat)
    (hm : E.measure text cfg.scale cfg.thickness = (tw, th, bl))
    (htext : text ≠ "") :
    ∃ p : Patch, (generateCache E W H cfg text).cached = some p ∧
      p.w = tw ∧ p.h = th + bl ∧
      (∀ b1 b2 : Int,
        ((generateCache E W H { cfg with border_width := b1 } text).cached.map
          (fun q => (q.w, q.h))) =
        ((generateCache E W H { cfg with border_width := b2 } text).cached.map
          (fun q => (q.w, q.h)))) ∧
      (∀ r c : Int,
        E.glyphMask text cfg.scale cfg.thickness (0, (th : Int)) r c = true →
        p.pix r c = cfg.fg) ∧
      (∀ r c : Int,
        E.glyphMask text cfg.scale cfg.thickness (0, (th : Int)) r c = false →
        p.pix r c =
          (if cfg.has_border && E.strokeMask tw (th + bl) cfg.border_width r c then
            cfg.border_color
          else if cfg.has_bg then cfg.bg else 0)) := by
  refine ⟨_, generateCache_eq E W H cfg text tw th bl hm htext, rfl, rfl,
          ?_, ?_, ?_⟩
  · intro b1 b2
    rw [generateCache_eq E W H { cfg with border_width := b1 } text tw th bl hm htext,
        generateCache_eq E W H { cfg with border_width := b2 } text tw th bl hm htext]
    rfl
  · intro r c hg
    show patchPix E cfg text tw th bl r c = cfg.fg
    simp [patchPix, hg]
  · intro r c hg
    show patchPix E cfg text tw th bl r c = _
    simp [patchPix, hg]

/-- C10 witness: a concrete render has bounding box 1 × 2 and its single
glyph pixel carries the foreground color over the border and background. -/
theorem c10_witness :
    (extA.measure "A" cfgA.scale cfgA.thickness = (1, 1, 1) ∧ ("A" : String) ≠ "") ∧
    (∃ p : Patch, (generateCache extA 4 4 cfgA "A").cached = some p ∧
      p.w = 1 ∧ p.h = 1 + 1 ∧
      (∀ b1 b2 : Int,
        ((generateCache extA 4 4 { cfgA with border_width := b1 } "A").cached.map
          (fun q => (q.w, q.h))) =
        ((generateCache extA 4 4 { cfgA with border_width := b2 } "A").cached.map
          (fun q => (q.w, q.h)))) ∧
      (∀ r c : Int,
        extA.glyphMask "A" cfgA.scale cfgA.thickness (0, (1 : Int)) r c = true →
        p.pix r c = cfgA.fg) ∧
      (∀ r c : Int,
        extA.glyphMask "A" cfgA.scale cfgA.thickness (0, (1 : Int)) r c = false →
        p.pix r c =
          (if cfgA.has_border && extA.strokeMask 1 (1 + 1) cfgA.border_width r c then
            cfgA.border_color
          else if cfgA.has_bg then cfgA.bg else 0))) :=
  ⟨⟨by decide, by decide⟩,
   c10_patch_render_layout extA 4 4 cfgA "A" 1 1 1 (by decide) (by decide)⟩

/-- The rendered patch contents do not depend on `alpha`. -/
theorem generateCache_alpha (E : Externals) (W H : Nat) (cfg : OverlayConfig)
    (text : String) (q : ℚ) :
    (generateCache E W H { cfg with alpha := q } text).cached =
      (generateCache E W H cfg text).cached := by
  by_cases ht : text = ""
  · unfold generateCache
    rw [if_pos ht, if_pos ht]
  · rw [generateCache_eq E W H { cfg with alpha := q } text
          (E.measure text cfg.scale cfg.thickness).1
          (E.measure text cfg.scale cfg.thickness).2.1
          (E.measure text cfg.scale cfg.thickness).2.2 rfl ht,
        generateCache_eq E W H cfg text
          (E.measure text cfg.scale cfg.thickness).1
          (E.measure text cfg.scale cfg.thickness).2.1
          (E.measure text cfg.scale cfg.thickness).2.2 rfl ht]
    exact congrArg some (Patch.ext rfl rfl rfl rfl (funext fun r => funext fun c => rfl))

/-- The cache policy's result (new cache and render decision) does not
depend on `alpha`. -/
theorem updateCache_alpha (E : Externals) (W H now : Nat) (cfg : OverlayConfig)
    (text : String) (q : ℚ) :
    (updateCache E W H now { cfg with alpha := q } text).1.cached =
      (updateCache E W H now cfg text).1.cached ∧
    (updateCache E W H now { cfg with alpha := q } text).2 =
      (updateCache E W H now cfg text).2 := by
  unfold updateCache
  by_cases hd : cfg.is_dynamic = true
  · rw [if_pos (show ({ cfg with alpha := q } : OverlayConfig).is_dynamic = true from hd),
        if_pos hd]
    by_cases hg : cfg.update_interval ≤ u64sub now cfg.last_update
    · rw [if_pos (show ({ cfg with alpha := q } : OverlayConfig).update_interval ≤
            u64sub now ({ cfg with alpha := q } : OverlayConfig).last_update from hg),
          if_pos hg]
      exact ⟨generateCache_alpha E W H cfg text q, rfl⟩
    · rw [if_neg (show ¬ (({ cfg with alpha := q } : OverlayConfig).update_interval ≤
            u64sub now ({ cfg with alpha := q } : OverlayConfig).last_update) from hg),
          if_neg hg]
      exact ⟨rfl, rfl⟩
  · rw [if_neg (show ¬ (({ cfg with alpha := q } : OverlayConfig).is_dynamic = true) from hd),
        if_neg hd]
    by_cases hc : cacheEmpty cfg.cached = true
    · rw [if_pos (show cacheEmpty ({ cfg with alpha := q } : OverlayConfig).cached = true from hc),
          if_pos hc]
      exact ⟨generateCache_alpha E W H cfg text q, rfl⟩
    · rw [if_neg (show ¬ (cacheEmpty ({ cfg with alpha := q } : OverlayConfig).cached = true) from hc),
          if_neg hc]
      exact ⟨rfl, rfl⟩

/-- The compositing step only reads the cache field of the overlay state. -/
theorem compositeCache_cached_congr (W H : Nat) (frame : Frame)
    (c1 c2 : OverlayConfig) (h : c1.cached = c2.cached) :
    compositeCache W H frame c1 = compositeCache W H frame c2 := by
  unfold compositeCache
  rw [h]

/-- C2 counterexample: with `has_bg` and `alpha = 0`, the frame pixel at
row 1, column 0 lies in the background region under the patch (no glyph, no
border there) and is changed from 100 to `bg = 7` by `Process` — the claim
`alpha = 0 leaves the background region unchanged` is false on the code,
which stamps the pre-rendered patch opaquely. -/
theorem c2_counterexample :
    cfgA.has_bg = true ∧ cfgA.alpha = 0 ∧
    (processOverlay extA 4 4 0 idExpand frame100 cfgA).frame 1 0 = 7 ∧
    frame100 1 0 = 100 ∧ (7 : Nat) ≠ 100 := by
  decide

/-- C2 (amended): compositing copies the cached patch opaquely
(`dst_roi ← patch`); `alpha` is never read, so the output frame is the same
for every `alpha`, and with `has_bg` every patch-region pixel not covered by
a glyph or border stroke is set to `bg` — in particular with `alpha = 0` the
background region under the patch becomes `bg` instead of staying
unchanged. -/
theorem c2_opaque_stamp_bg (E : Externals) (W H now : Nat)
    (ex : String → String) (frame : Frame) (cfg : OverlayConfig)
    (tw th bl : Nat)
    (hbg : cfg.has_bg = true)
    (hm : E.measure (expandText ex cfg) cfg.scale cfg.thickness = (tw, th, bl))
    (htext : expandText ex cfg ≠ "")
    (hrender : (updateCache E W H now cfg (expandText ex cfg)).2 = true) :
    (∀ q : ℚ, (processOverlay E W H now ex frame { cfg with alpha := q }).frame =
        (processOverlay E W H now ex frame cfg).frame) ∧
    (∀ p : Patch, (processOverlay E W H now ex frame cfg).drawn = some p →
      ∀ r c : Int, inRect p r c →
        E.glyphMask (expandText ex cfg) cfg.scale cfg.thickness (0, (th : Int))
          (r - p.y) (c - p.x) = false →
        (cfg.has_border && E.strokeMask tw (th + bl) cfg.border_width
          (r - p.y) (c - p.x)) = false →
        (processOverlay E W H now ex frame cfg).frame r c = cfg.bg) := by
  constructor
  · intro q
    have htq : expandText ex { cfg with alpha := q } = expandText ex cfg := rfl
    by_cases ht : expandText ex cfg = ""
    · simp [processOverlay, htq, ht]
    · simp only [processOverlay, htq, if_neg ht]
      exact congrArg Prod.fst (compositeCache_cached_congr W H frame _ _
        (updateCache_alpha E W H now cfg (expandText ex cfg) q).1)
  · intro p hp r c hin hglyph hborder
    have hcc : (updateCache E W H now cfg (expandText ex cfg)).1.cached =
        some { x := max 0 (min cfg.x ((W : Int) - (tw : Int))),
               y := max ((th : Int) + (bl : Int))
                      (min cfg.y ((H : Int) - (bl : Int))) - (th : Int),
               w := tw, h := th + bl,
               pix := patchPix E cfg (expandText ex cfg) tw th bl } :=
      (updateCache_rendered_cached E W H now cfg _ hrender).trans
        (generateCache_eq E W H cfg _ tw th bl hm htext)
    simp only [processOverlay, if_neg htext] at hp ⊢
    simp only [compositeCache, hcc] at hp ⊢
    split at hp
    case isTrue hfit =>
      rw [if_pos hfit]
      have hpe : p = _ := (Option.some.inj hp).symm
      subst hpe
      show composite frame _ r c = cfg.bg
      unfold composite
      rw [if_pos hin]
      show patchPix E cfg (expandText ex cfg) tw th bl _ _ = cfg.bg
      unfold patchPix
      rw [if_neg (by simp [hglyph]), if_neg (by simp [hborder]), if_pos hbg]
    case isFalse hfit =>
      exact absurd hp (by simp)

/-- C2 witness: on a concrete overlay with `has_bg`, changing `alpha` from 0
to 5 leaves the `Process` output frame identical. -/
theorem c2_witness :
    (cfgA.has_bg = true ∧
     extA.measure (expandText idExpand cfgA) cfgA.scale cfgA.thickness = (1, 1, 1) ∧
     expandText idExpand cfgA ≠ "" ∧
     (updateCache extA 4 4 0 cfgA (expandText idExpand cfgA)).2 = true) ∧
    (processOverlay extA 4 4 0 idExpand frame100 { cfgA with alpha := 5 }).frame =
      (processOverlay extA 4 4 0 idExpand frame100 cfgA).frame :=
  ⟨⟨rfl, by decide, by decide, by decide⟩,
   (c2_opaque_stamp_bg extA 4 4 0 idExpand frame100 cfgA 1 1 1 rfl (by decide)
      (by decide) (by decide)).1 5⟩

end OverlayCV
